import Mathlib

/-!
Shallow embedding of the deterministic extraction-and-flagging core of the
BLOOD_TEST_ANALYSIS repository (`flag_logic.py` and `extractor.py`).

Strings are modelled as Lean `String`/`List Char`; Python floats are modelled
as exact rationals `ℚ` (every numeric literal handled by the claims has an
exact decimal value, and all comparisons performed by the code are order
comparisons that agree with the rational order on such values).  The regular
expressions of the source are small and deterministic (their only choice
points are `-?`, a greedy optional fraction, and literal alternations whose
branches are forced by the next character), so each one is embedded as a
direct scanning function with Python's leftmost-match `re.search` semantics.
-/

/-- Characters Python treats as whitespace for `str.strip()`, `str.split()`
and the regex class `\s` (ASCII part plus the common control separators). -/
def isPySpace (c : Char) : Bool :=
  c = ' ' || c = '\t' || c = '\n' || c = '\r' || c = '\x0b' || c = '\x0c' ||
  c = '\x1c' || c = '\x1d' || c = '\x1e' || c = '\x85'

/-- Remove the trailing run of characters satisfying `p`. -/
def dropTrailing (p : Char → Bool) (l : List Char) : List Char :=
  (l.reverse.dropWhile p).reverse

/-- Python `str.strip(chars)`: remove leading and trailing characters
satisfying `p`. -/
def stripList (p : Char → Bool) (l : List Char) : List Char :=
  dropTrailing p (l.dropWhile p)

/-- The character set of Python `str.strip("-:")`. -/
def isDashColon (c : Char) : Bool :=
  c = '-' || c = ':'

/-- The character set of Python `str.strip("-: ")`. -/
def isDashColonSpace (c : Char) : Bool :=
  c = '-' || c = ':' || c = ' '

/-- Python `needle in hay` substring test on character lists. -/
def listContains (needle : List Char) : List Char → Bool
  | [] => needle.isEmpty
  | c :: t => needle.isPrefixOf (c :: t) || listContains needle t

/-- Numeric value of a digit string (most significant first). -/
def digitsToNat (ds : List Char) : Nat :=
  ds.foldl (fun acc c => 10 * acc + (c.toNat - '0'.toNat)) 0

/-- Match `\d+(?:\.\d+)?` at the head of `l`, greedily: returns the matched
characters and the rest.  The optional fraction is taken whenever a dot is
followed by at least one digit (taking it can never break the enclosing
patterns, whose next tokens reject a dot). -/
def numCore (l : List Char) : Option (List Char × List Char) :=
  let ds := l.takeWhile Char.isDigit
  let r := l.dropWhile Char.isDigit
  if ds.isEmpty then none
  else
    match r with
    | '.' :: r2 =>
      let fs := r2.takeWhile Char.isDigit
      let r3 := r2.dropWhile Char.isDigit
      if fs.isEmpty then some (ds, r) else some (ds ++ '.' :: fs, r3)
    | _ => some (ds, r)

/-- Match `-?\d+(?:\.\d+)?` (the `VALUE_PATTERN` / `NUMBER_PATTERN` regex of
the source) at the head of `l`. -/
def matchNumAt (l : List Char) : Option (List Char × List Char) :=
  match l with
  | '-' :: rest =>
    match numCore rest with
    | some (tok, r) => some ('-' :: tok, r)
    | none => none
  | _ => numCore l

/-- `re.search` for `VALUE_PATTERN`: leftmost match, returning the text
before the match, the matched token and the text after it. -/
def searchNum : List Char → Option (List Char × List Char × List Char)
  | [] => none
  | c :: t =>
    match matchNumAt (c :: t) with
    | some (tok, rest) => some ([], tok, rest)
    | none =>
      match searchNum t with
      | some (pre, tok, rest) => some (c :: pre, tok, rest)
      | none => none

/-- The literal separator alternation `(?:-|–|—|to|TO|–|—)` of the
two `RANGE_PATTERN` regexes (`–`/`—` are the same characters as
`–`/`—`).  Returns the separator characters and the rest. -/
def matchRangeSep : List Char → Option (List Char × List Char)
  | '-' :: t => some (['-'], t)
  | '–' :: t => some (['–'], t)
  | '—' :: t => some (['—'], t)
  | 't' :: 'o' :: t => some (['t', 'o'], t)
  | 'T' :: 'O' :: t => some (['T', 'O'], t)
  | _ => none

/-- Match `RANGE_PATTERN` — `-?\d+(?:\.\d+)?\s*SEP\s*-?\d+(?:\.\d+)?` — at
the head of `l`.  Returns (whole match, first number, second number, rest). -/
def matchRangeAt (l : List Char) :
    Option (List Char × List Char × List Char × List Char) :=
  match matchNumAt l with
  | none => none
  | some (t1, r1) =>
    let w1 := r1.takeWhile isPySpace
    let r1b := r1.dropWhile isPySpace
    match matchRangeSep r1b with
    | none => none
    | some (sep, r2) =>
      let w2 := r2.takeWhile isPySpace
      let r2b := r2.dropWhile isPySpace
      match matchNumAt r2b with
      | none => none
      | some (t2, r3) => some (t1 ++ w1 ++ sep ++ w2 ++ t2, t1, t2, r3)

/-- `re.search` for `RANGE_PATTERN`: leftmost match, returning the text
before the match, the whole match, the two numeric groups and the rest. -/
def searchRange :
    List Char → Option (List Char × List Char × List Char × List Char × List Char)
  | [] => none
  | c :: t =>
    match matchRangeAt (c :: t) with
    | some (full, t1, t2, rest) => some ([], full, t1, t2, rest)
    | none =>
      match searchRange t with
      | some (pre, full, t1, t2, rest) => some (c :: pre, full, t1, t2, rest)
      | none => none

/-- The comparison symbols of `SINGLE_BOUND_PATTERN`. -/
inductive BoundSym
  | lt
  | le
  | gt
  | ge
deriving DecidableEq

/-- The alternation `(<=|>=|<|>)`, tried in the source's order. -/
def matchBoundSym : List Char → Option (BoundSym × List Char)
  | '<' :: '=' :: t => some (BoundSym.le, t)
  | '>' :: '=' :: t => some (BoundSym.ge, t)
  | '<' :: t => some (BoundSym.lt, t)
  | '>' :: t => some (BoundSym.gt, t)
  | _ => none

/-- Match `SINGLE_BOUND_PATTERN` — `(<=|>=|<|>)\s*-?\d+(?:\.\d+)?` — at the
head of `l`. -/
def matchBoundAt (l : List Char) : Option (BoundSym × List Char × List Char) :=
  match matchBoundSym l with
  | none => none
  | some (sym, r) =>
    match matchNumAt (r.dropWhile isPySpace) with
    | none => none
    | some (tok, rest) => some (sym, tok, rest)

/-- `re.search` for `SINGLE_BOUND_PATTERN`. -/
def searchBound : List Char → Option (BoundSym × List Char × List Char)
  | [] => none
  | c :: t =>
    match matchBoundAt (c :: t) with
    | some hit => some hit
    | none => searchBound t

/-- `NUMBER_PATTERN.findall`: all non-overlapping leftmost matches.  The fuel
argument (initialised to the list length) only serves structural recursion;
every step consumes at least one character. -/
def findallNums : Nat → List Char → List (List Char)
  | 0, _ => []
  | _, [] => []
  | fuel + 1, c :: t =>
    match matchNumAt (c :: t) with
    | some (tok, rest) => tok :: findallNums fuel rest
    | none => findallNums fuel t

/-- `NUMBER_PATTERN.findall` with the fuel filled in. -/
def pyFindallNums (l : List Char) : List (List Char) :=
  findallNums l.length l

/-- Split a mantissa into integer digits, fraction digits and the rest. -/
def mantissaSplit (l : List Char) : List Char × List Char × List Char :=
  let ds := l.takeWhile Char.isDigit
  let r := l.dropWhile Char.isDigit
  match r with
  | '.' :: t => (ds, t.takeWhile Char.isDigit, t.dropWhile Char.isDigit)
  | _ => (ds, [], r)

/-- Exponent digits with optional sign; the whole rest must be consumed. -/
def expDigits (l : List Char) : Option Int :=
  let p : Int × List Char :=
    match l with
    | '-' :: t => (-1, t)
    | '+' :: t => (1, t)
    | _ => (1, l)
  let ds := p.2.takeWhile Char.isDigit
  let r := p.2.dropWhile Char.isDigit
  if ds.isEmpty || !r.isEmpty then none
  else some (p.1 * (digitsToNat ds : Int))

/-- Optional exponent part `([eE][+-]?\d+)?` ending the literal. -/
def expSplit : List Char → Option Int
  | [] => some 0
  | 'e' :: t => expDigits t
  | 'E' :: t => expDigits t
  | _ => none

/-- Python `float(s)` restricted to finite decimal literals, as an exact
rational.  It accepts surrounding whitespace, an optional sign, digits with
an optional decimal point and an optional decimal exponent — exactly the
forms produced or consumed by this repository.  (The special forms
`inf`/`nan` and digit-group underscores are unrepresentable or irrelevant
here and parse to `none`.)  This models the source's `_parse_float`, which
wraps `float` and maps failure to `None`. -/
def pyFloat (s : List Char) : Option ℚ :=
  let l := stripList isPySpace s
  let p : Int × List Char :=
    match l with
    | '-' :: t => (-1, t)
    | '+' :: t => (1, t)
    | _ => (1, l)
  let m := mantissaSplit p.2
  let ds := m.1
  let fs := m.2.1
  let r := m.2.2
  if ds.isEmpty && fs.isEmpty then none
  else
    match expSplit r with
    | none => none
    | some e =>
      let mant : Int := (digitsToNat ds * 10 ^ fs.length + digitsToNat fs : Nat)
      some (if 0 ≤ e then
              Rat.divInt (p.1 * mant * ((10 ^ e.toNat : Nat) : Int)) ((10 ^ fs.length : Nat) : Int)
            else
              Rat.divInt (p.1 * mant) ((10 ^ (fs.length + (-e).toNat) : Nat) : Int))

/-- `ParsedRange` from `flag_logic.py`: an interval with optional bounds. -/
structure ParsedRange where
  low : Option ℚ := none
  high : Option ℚ := none
deriving DecidableEq

/-- `ParsedRange.classify` from `flag_logic.py`: empty string when either
bound is absent, else `"low"` / `"high"` / `"normal"` with inclusive
boundaries. -/
def ParsedRange.classify (r : ParsedRange) (value : ℚ) : String :=
  match r.low, r.high with
  | some lo, some hi =>
    if value < lo then "low"
    else if hi < value then "high"
    else "normal"
  | _, _ => ""

/-- Python `str.replace(ab, "-")` for a two-character needle `ab`. -/
def replacePair (a b repl : Char) : List Char → List Char
  | [] => []
  | [c] => [c]
  | c :: d :: t =>
    if c = a && d = b then repl :: replacePair a b repl t
    else c :: replacePair a b repl (d :: t)

/-- The normalisation prefix of `_parse_range`:
`ref.replace("to","-").replace("TO","-").replace("–","-").replace("—","-").strip()`. -/
def normalizeRangeText (l : List Char) : List Char :=
  let l1 := replacePair 't' 'o' '-' l
  let l2 := replacePair 'T' 'O' '-' l1
  let l3 := l2.map (fun c => if c = '–' then '-' else c)
  let l4 := l3.map (fun c => if c = '—' then '-' else c)
  stripList isPySpace l4

/-- The fallback of `_parse_range`: `NUMBER_PATTERN.findall`, then the first
two numbers min/max-ordered when both parse. -/
def parseRangeFallback (ref : List Char) : ParsedRange :=
  match (pyFindallNums ref).map pyFloat with
  | some a :: some b :: _ => ⟨some (min a b), some (max a b)⟩
  | _ => ⟨none, none⟩

/-- The single-bound branch of `_parse_range`, falling through to the bare
number fallback when `SINGLE_BOUND_PATTERN` does not match. -/
def parseRangeSingleOrFallback (ref : List Char) : ParsedRange :=
  match searchBound ref with
  | some (sym, tok, _) =>
    match pyFloat tok with
    | none => ⟨none, none⟩
    | some v =>
      match sym with
      | BoundSym.gt => ⟨some v, none⟩
      | BoundSym.ge => ⟨some v, none⟩
      | BoundSym.lt => ⟨none, some v⟩
      | BoundSym.le => ⟨none, some v⟩
  | none => parseRangeFallback ref

/-- The body of `_parse_range` after the normalisation of the range text. -/
def parseRangeCore (ref : List Char) : ParsedRange :=
  match searchRange ref with
  | some (_, _, lowTok, highTok, _) =>
    match pyFloat lowTok, pyFloat highTok with
    | some lo, some hi =>
      if hi < lo then ⟨some hi, some lo⟩ else ⟨some lo, some hi⟩
    | _, _ => parseRangeSingleOrFallback ref
  | none => parseRangeSingleOrFallback ref

/-- `_parse_range` from `flag_logic.py`. -/
def parse_range (reference_range : String) : ParsedRange :=
  if reference_range.data.isEmpty then ⟨none, none⟩
  else parseRangeCore (normalizeRangeText reference_range.data)

/-- `compute_flag` from `flag_logic.py`. -/
def compute_flag (value reference_range : String) : String :=
  match pyFloat (stripList isPySpace value.data) with
  | none => ""
  | some numeric_value =>
    let parsed_range := parse_range reference_range
    match parsed_range.low, parsed_range.high with
    | some _, some _ => parsed_range.classify numeric_value
    | _, _ => ""

/-- Python `str.splitlines` boundary characters (`\r\n` is handled as a
single boundary by `pySplitlines`). -/
def isLineBreak (c : Char) : Bool :=
  c = '\n' || c = '\r' || c = '\x0b' || c = '\x0c' || c = '\x1c' ||
  c = '\x1d' || c = '\x1e' || c = '\x85' || c = '\u2028' || c = '\u2029'

/-- Python `str.splitlines`. -/
def pySplitlines : List Char → List (List Char)
  | [] => []
  | '\r' :: '\n' :: t => [] :: pySplitlines t
  | c :: t =>
    if isLineBreak c then [] :: pySplitlines t
    else
      match pySplitlines t with
      | [] => [[c]]
      | l :: ls => (c :: l) :: ls

/-- Python `str.split()` (split on whitespace runs, dropping empty pieces);
the accumulator holds the current word reversed. -/
def pySplitWsAux (acc : List Char) : List Char → List (List Char)
  | [] => if acc.isEmpty then [] else [acc.reverse]
  | c :: t =>
    if isPySpace c then
      if acc.isEmpty then pySplitWsAux [] t
      else acc.reverse :: pySplitWsAux [] t
    else pySplitWsAux (c :: acc) t

/-- Python `" ".join(words)`. -/
def joinSpace : List (List Char) → List Char
  | [] => []
  | [w] => w
  | w :: ws => w ++ ' ' :: joinSpace ws

/-- `" ".join(raw_line.split())`: collapse internal whitespace runs to single
spaces and strip the ends. -/
def collapseLine (l : List Char) : List Char :=
  joinSpace (pySplitWsAux [] l)

/-- `_iter_clean_lines` from `extractor.py`: whitespace-collapsed non-empty
lines. -/
def iter_clean_lines (text : String) : List String :=
  ((pySplitlines text.data).map collapseLine).filterMap
    (fun l => if l.isEmpty then none else some (String.mk l))

/-- The metadata keywords rejected by `_parse_test_line`. -/
def METADATA_KEYWORDS : List String :=
  ["patient", "referring", "doctor", "lab", "report", "age", "gender"]

/-- `any(keyword in lowered for keyword in ...)` over the lowercased line. -/
def contains_metadata_keyword (line : List Char) : Bool :=
  let lowered := line.map Char.toLower
  METADATA_KEYWORDS.any (fun kw => listContains kw.data lowered)

/-- One detected lab measurement (the raw test dict of `_parse_test_line`,
whose values are all strings). -/
structure TestRecord where
  name : String
  value : String
  unit : String
  reference_range : String
  flag : String
  raw_text_snippet : String
deriving DecidableEq

/-- `_parse_test_line` from `extractor.py`. -/
def parse_test_line (line : String) : Option TestRecord :=
  let l := line.data
  if contains_metadata_keyword l then none
  else if l.countP (fun c => c.isDigit) = 0 then none
  else
    match searchNum l with
    | none => none
    | some (pre, tok, post) =>
      let name := stripList isDashColonSpace pre
      if name.length < 2 then none
      else
        let remainder := stripList isPySpace post
        match searchRange remainder with
        | some (pre2, full, _, _, _) =>
          some ⟨String.mk name, String.mk (stripList isPySpace tok),
                String.mk (stripList isDashColonSpace pre2),
                String.mk (stripList isPySpace full), "",
                String.mk (stripList isPySpace l)⟩
        | none =>
          some ⟨String.mk name, String.mk (stripList isPySpace tok),
                String.mk (stripList isPySpace remainder), "", "",
                String.mk (stripList isPySpace l)⟩

/-- `_parse_tests` from `extractor.py`. -/
def parse_tests (text : String) : List TestRecord :=
  (iter_clean_lines text).filterMap parse_test_line

/-- Strip a string's surrounding whitespace (Python `str.strip()`). -/
def stripStr (s : String) : String :=
  String.mk (stripList isPySpace s.data)

/-- The per-record normalisation of `_sanitize_tests`: strip every field and
compute the flag when it is empty. -/
def sanitize_test (t : TestRecord) : TestRecord :=
  let n : TestRecord :=
    ⟨stripStr t.name, stripStr t.value, stripStr t.unit,
     stripStr t.reference_range, stripStr t.flag, stripStr t.raw_text_snippet⟩
  if n.flag = "" then
    ⟨n.name, n.value, n.unit, n.reference_range,
     compute_flag n.value n.reference_range, n.raw_text_snippet⟩
  else n

/-- `_sanitize_tests` from `extractor.py`. -/
def sanitize_tests (tests : List TestRecord) : List TestRecord :=
  tests.map sanitize_test

/-- Case-insensitive literal match at the head of the text (Python
`re.IGNORECASE` on an ASCII literal).  Returns the rest on success. -/
def ciMatchLit : List Char → List Char → Option (List Char)
  | [], l => some l
  | _ :: _, [] => none
  | a :: ns, c :: t => if a.toLower = c.toLower then ciMatchLit ns t else none

/-- The group part `\s*(.+)` of every patient-field pattern, with `re`
backtracking: `\s*` is taken greedily and then shortened until `.+` can
match at least one non-newline character; the group runs to the end of the
line (`.` does not match `\n`).  The first argument is the reversed
whitespace run still available for backtracking. -/
def groupBacktrack : List Char → List Char → Option (List Char)
  | wrev, c :: rest =>
    if c = '\n' then
      match wrev with
      | [] => none
      | d :: wrev2 => groupBacktrack wrev2 (d :: c :: rest)
    else some ((c :: rest).takeWhile (fun e => decide (e ≠ '\n')))
  | wrev, [] =>
    match wrev with
    | [] => none
    | d :: wrev2 => groupBacktrack wrev2 [d]

/-- The common tail `\s*[:\-]\s*(.+)` of every patient-field pattern. -/
def matchFieldTail (l : List Char) : Option (List Char) :=
  match l.dropWhile isPySpace with
  | ':' :: t => groupBacktrack (t.takeWhile isPySpace).reverse (t.dropWhile isPySpace)
  | '-' :: t => groupBacktrack (t.takeWhile isPySpace).reverse (t.dropWhile isPySpace)
  | _ => none

/-- Match one patient-field pattern at the head of the text.  A pattern is a
list of literal label alternatives (in the regex's backtracking order — only
`Ref(?:erring)? Doctor` has two) followed by the common tail. -/
def matchAltsAt (alts : List (List Char)) (l : List Char) : Option (List Char) :=
  match alts with
  | [] => none
  | a :: rest =>
    match ciMatchLit a l with
    | some r =>
      match matchFieldTail r with
      | some g => some g
      | none => matchAltsAt rest l
    | none => matchAltsAt rest l

/-- `re.search` for a patient-field pattern: leftmost match of the label
(all label literals are non-empty, so the empty tail cannot match). -/
def searchFieldPattern (alts : List (List Char)) : List Char → Option (List Char)
  | [] => none
  | c :: t =>
    match matchAltsAt alts (c :: t) with
    | some g => some g
    | none => searchFieldPattern alts t

/-- First pattern of a field's list that matches anywhere in the text wins
(the loop with `break` of `_extract_patient_details`). -/
def searchFieldPatterns (pats : List (List (List Char))) (text : List Char) :
    Option (List Char) :=
  match pats with
  | [] => none
  | p :: rest =>
    match searchFieldPattern p text with
    | some g => some g
    | none => searchFieldPatterns rest text

/-- `PATIENT_FIELD_PATTERNS` from `extractor.py`.  Every source regex has
the shape `LABEL\s*[:\-]\s*(.+)` (with `Ref(?:erring)? Doctor` expanding to
two label alternatives), so a pattern is represented by its label
alternatives. -/
def PATIENT_FIELD_PATTERNS : List (String × List (List (List Char))) :=
  [("name", [["Patient Name".data], ["Name".data]]),
   ("age", [["Age".data]]),
   ("gender", [["Gender".data], ["Sex".data]]),
   ("patient_id", [["Patient ID".data], ["ID".data]]),
   ("date_of_report", [["Date".data], ["Date of Report".data]]),
   ("referring_doctor", [["Referring Doctor".data, "Ref Doctor".data]]),
   ("laboratory_name", [["Laboratory".data], ["Lab Name".data]])]

/-- `_clean_text` from `extractor.py`: `value.strip().strip("-:")`. -/
def clean_text (value : List Char) : List Char :=
  stripList isDashColon (stripList isPySpace value)

/-- The value stored for one field by `_extract_patient_details`: empty when
no pattern matches, else the cleaned first match group. -/
def fieldValue (pats : List (List (List Char))) (text : List Char) : String :=
  match searchFieldPatterns pats text with
  | none => ""
  | some g => String.mk (clean_text g)

/-- `_extract_patient_details` from `extractor.py`, as the association list
of its result dict (insertion order is the fixed key order). -/
def extract_patient_details (text : String) : List (String × String) :=
  PATIENT_FIELD_PATTERNS.map (fun kp => (kp.1, fieldValue kp.2 text.data))

/-- `report_metadata` of an extraction result.  The extraction timestamp is
produced by `datetime.now(...)` in the source; it enters the embedding as an
explicit argument, the only non-deterministic input of `extract_from_text`. -/
structure ReportMetadata where
  source_filename : String
  num_pages : Nat
  extraction_timestamp : String
deriving DecidableEq

/-- `ExtractionResult.as_dict` from `extractor.py`, as a structure. -/
structure ExtractionResult where
  patient_details : List (String × String)
  report_metadata : ReportMetadata
  tests : List TestRecord
deriving DecidableEq

/-- `ReportExtractor.extract_from_text` from `extractor.py` (the timestamp
argument models the `datetime.now` call). -/
def extract_from_text (text source_filename : String) (num_pages : Nat)
    (timestamp : String) : ExtractionResult :=
  ⟨extract_patient_details text,
   ⟨source_filename, num_pages, timestamp⟩,
   sanitize_tests (parse_tests text)⟩

/-- The three-line sample text of the specification and of
`tests/test_extractor.py`. -/
def sampleText : String :=
  "Patient Name: Jane Doe  Age: 45  Gender: Female\nHemoglobin 11.2 g/dL 12 - 16\nPlatelet Count 420 x10^3/uL 150-400"

/-! ### Helper lemmas about stripping -/

lemma head?_dropWhile_not (p : Char → Bool) :
    ∀ (l : List Char) (c : Char), (l.dropWhile p).head? = some c → p c = false := by
  intro l
  induction l with
  | nil => intro c h; simp at h
  | cons a t ih =>
    intro c h
    rw [List.dropWhile_cons] at h
    by_cases hpa : p a
    · rw [if_pos hpa] at h; exact ih c h
    · rw [if_neg hpa] at h
      simp only [List.head?_cons, Option.some.injEq] at h
      subst h
      exact Bool.eq_false_iff.mpr hpa

lemma getLast?_dropWhile (p : Char → Bool) :
    ∀ (l : List Char), l.dropWhile p ≠ [] → (l.dropWhile p).getLast? = l.getLast? := by
  intro l
  induction l with
  | nil => intro h; simp at h
  | cons a t ih =>
    intro h
    rw [List.dropWhile_cons] at h ⊢
    by_cases hpa : p a
    · rw [if_pos hpa] at h ⊢
      have ht : t ≠ [] := by
        intro he; rw [he] at h; simp at h
      rw [ih h]
      match t, ht with
      | b :: t2, _ => rw [List.getLast?_cons_cons]
    · rw [if_neg hpa]

lemma stripList_head?_not (p : Char → Bool) (l : List Char) (c : Char)
    (h : (stripList p l).head? = some c) : p c = false := by
  unfold stripList dropTrailing at h
  set m := l.dropWhile p with hm
  rw [List.head?_reverse] at h
  have hne : m.reverse.dropWhile p ≠ [] := by
    intro he; rw [he] at h; simp at h
  rw [getLast?_dropWhile p m.reverse hne, List.getLast?_reverse] at h
  exact head?_dropWhile_not p l c h

lemma stripList_getLast?_not (p : Char → Bool) (l : List Char) (c : Char)
    (h : (stripList p l).getLast? = some c) : p c = false := by
  unfold stripList dropTrailing at h
  rw [List.getLast?_reverse] at h
  exact head?_dropWhile_not p _ c h

/-- `classify` over a closed range, unfolded. -/
lemma classify_closed (lo hi v : ℚ) :
    (ParsedRange.mk (some lo) (some hi)).classify v =
      if v < lo then "low" else if hi < v then "high" else "normal" := rfl

/-! ### C2 -/

/-- C2: for a `ParsedRange` with both bounds present and `low ≤ high`,
`classify` is `"normal"` at both boundaries (inclusive interval), `"low"`
strictly below `low` and `"high"` strictly above `high`. -/
theorem c2_classify_boundary (lo hi v : ℚ) (h : lo ≤ hi) :
    (ParsedRange.mk (some lo) (some hi)).classify lo = "normal" ∧
    (ParsedRange.mk (some lo) (some hi)).classify hi = "normal" ∧
    (v < lo → (ParsedRange.mk (some lo) (some hi)).classify v = "low") ∧
    (hi < v → (ParsedRange.mk (some lo) (some hi)).classify v = "high") := by
  refine ⟨?_, ?_, fun hv => ?_, fun hv => ?_⟩ <;> rw [classify_closed]
  · rw [if_neg (lt_irrefl lo), if_neg (not_lt.mpr h)]
  · rw [if_neg (not_lt.mpr h), if_neg (lt_irrefl hi)]
  · rw [if_pos hv]
  · rw [if_neg (not_lt.mpr (h.trans hv.le)), if_pos hv]

/-- Witness for C2 at the closed range `[12, 16]` and the value `10`. -/
theorem c2_classify_boundary_witness :
    (ParsedRange.mk (some (12:ℚ)) (some 16)).classify 12 = "normal" ∧
    (ParsedRange.mk (some (12:ℚ)) (some 16)).classify 16 = "normal" ∧
    ((10:ℚ) < 12 → (ParsedRange.mk (some (12:ℚ)) (some 16)).classify 10 = "low") ∧
    ((16:ℚ) < 10 → (ParsedRange.mk (some (12:ℚ)) (some 16)).classify 10 = "high") :=
  c2_classify_boundary 12 16 10 (by norm_num)

/-! ### C9 -/

/-- C9: `extract_from_text` is deterministic on `patient_details` and
`tests` — two runs on the same text, filename and page count agree on both
components; only the timestamp argument (the one non-deterministic input)
can differ. -/
theorem c9_extract_deterministic (text source_filename : String)
    (num_pages : Nat) (ts1 ts2 : String) :
    (extract_from_text text source_filename num_pages ts1).patient_details =
      (extract_from_text text source_filename num_pages ts2).patient_details ∧
    (extract_from_text text source_filename num_pages ts1).tests =
      (extract_from_text text source_filename num_pages ts2).tests :=
  ⟨rfl, rfl⟩

/-! ### C1 -/

/-- C1 counterexample: on the three-line sample text the extracted patient
name is the whole remainder of the matched line,
`"Jane Doe  Age: 45  Gender: Female"`, not `"Jane Doe"` as claimed (and the
age is `"45  Gender: Female"`, not `"45"`): the `(.+)` group of
`Patient Name\s*[:\-]\s*(.+)` runs to the end of the line. -/
theorem c1_counterexample :
    (extract_patient_details sampleText).lookup "name" =
      some "Jane Doe  Age: 45  Gender: Female" ∧
    (extract_patient_details sampleText).lookup "name" ≠ some "Jane Doe" ∧
    (extract_patient_details sampleText).lookup "age" ≠ some "45" := by
  decide

/-- C1 amended: on the three-line sample text, `extract_from_text` returns
patient details whose name is `"Jane Doe  Age: 45  Gender: Female"` and
whose age is `"45  Gender: Female"` (each labelled-field group captures the
rest of its line, inline fields included), and exactly the two claimed test
records, in order, with flags `"low"` and `"high"`. -/
theorem c1_sample_extraction :
    (extract_from_text sampleText "sample.txt" 1 "ts").patient_details.lookup "name" =
      some "Jane Doe  Age: 45  Gender: Female" ∧
    (extract_from_text sampleText "sample.txt" 1 "ts").patient_details.lookup "age" =
      some "45  Gender: Female" ∧
    (extract_from_text sampleText "sample.txt" 1 "ts").tests =
      [⟨"Hemoglobin", "11.2", "g/dL", "12 - 16", "low",
        "Hemoglobin 11.2 g/dL 12 - 16"⟩,
       ⟨"Platelet Count", "420", "x10^3/uL", "150-400", "high",
        "Platelet Count 420 x10^3/uL 150-400"⟩] := by
  decide

/-! ### C6 -/

/-- C6 counterexample: the range token of `RANGE_PATTERN` in `extractor.py`
is not matched case-insensitively — a remainder containing `"12 To 16"`
yields an empty `reference_range`, not `"12 To 16"`. -/
theorem c6_counterexample :
    (parse_test_line "Foo 7 mg 12 To 16").map (fun t => t.reference_range) =
      some "" ∧
    (parse_test_line "Foo 7 mg 12 To 16").map (fun t => t.reference_range) ≠
      some "12 To 16" := by
  decide

/-- C6 amended: the reference range is the first range-like substring of
the remainder after the value token, but the joining token only matches the
exact literals `-`/`–`/`—`/`to`/`TO` — lowercase `to` and uppercase `TO`
work, mixed-case `To` does not (no `re.IGNORECASE` on `RANGE_PATTERN`), and
the leftmost range-like substring wins. -/
theorem c6_range_token_literal :
    (parse_test_line "Foo 7 mg 12 to 16").map (fun t => t.reference_range) =
      some "12 to 16" ∧
    (parse_test_line "Foo 7 mg 12 TO 16").map (fun t => t.reference_range) =
      some "12 TO 16" ∧
    (parse_test_line "Foo 7 mg 12 To 16").map (fun t => t.reference_range) =
      some "" ∧
    (parse_test_line "Foo 7 mg 1-2 3-4").map (fun t => t.reference_range) =
      some "1-2" := by
  decide

/-! ### C3 -/

lemma parseRangeFallback_ordered (ref : List Char) (lo hi : ℚ)
    (h : parseRangeFallback ref = ⟨some lo, some hi⟩) : lo ≤ hi := by
  unfold parseRangeFallback at h
  split at h
  · simp only [ParsedRange.mk.injEq, Option.some.injEq] at h
    obtain ⟨h1, h2⟩ := h
    subst h1; subst h2
    exact min_le_max
  · simp at h

lemma parseRangeSingleOrFallback_ordered (ref : List Char) (lo hi : ℚ)
    (h : parseRangeSingleOrFallback ref = ⟨some lo, some hi⟩) : lo ≤ hi := by
  unfold parseRangeSingleOrFallback at h
  split at h
  · split at h
    · simp at h
    · split at h <;> simp at h
  · exact parseRangeFallback_ordered ref lo hi h

lemma parseRangeCore_ordered (ref : List Char) (lo hi : ℚ)
    (h : parseRangeCore ref = ⟨some lo, some hi⟩) : lo ≤ hi := by
  unfold parseRangeCore at h
  split at h
  · split at h
    · rename_i lo0 hi0 _ _
      split at h
      · rename_i hlt
        simp only [ParsedRange.mk.injEq, Option.some.injEq] at h
        obtain ⟨h1, h2⟩ := h
        subst h1; subst h2
        exact le_of_lt hlt
      · rename_i hlt
        simp only [ParsedRange.mk.injEq, Option.some.injEq] at h
        obtain ⟨h1, h2⟩ := h
        subst h1; subst h2
        exact not_lt.mp hlt
    · exact parseRangeSingleOrFallback_ordered ref lo hi h
  · exact parseRangeSingleOrFallback_ordered ref lo hi h

/-- C3: whenever `parse_range` produces a range with both bounds present,
`low ≤ high` (bounds parsed in reverse order are swapped); in particular
`"16-12"` and `"12-16"` both parse to the interval `[12, 16]`. -/
theorem c3_parse_range_ordered :
    (∀ (s : String) (lo hi : ℚ), parse_range s = ⟨some lo, some hi⟩ → lo ≤ hi) ∧
    parse_range "16-12" = ⟨some 12, some 16⟩ ∧
    parse_range "12-16" = ⟨some 12, some 16⟩ := by
  refine ⟨?_, by decide, by decide⟩
  intro s lo hi h
  unfold parse_range at h
  split at h
  · simp at h
  · exact parseRangeCore_ordered _ lo hi h

/-- Witness for C3: the invariant applied to the reversed range `"16-12"`. -/
theorem c3_parse_range_ordered_witness : (12:ℚ) ≤ 16 :=
  c3_parse_range_ordered.1 "16-12" 12 16 (by decide)

/-! ### C4 and C5 helpers -/

lemma classify_unclassifiable (r : ParsedRange) (v : ℚ)
    (h : r.low = none ∨ r.high = none) : r.classify v = "" := by
  obtain ⟨lo, hi⟩ := r
  rcases h with h | h
  · dsimp only at h
    subst h
    cases hi <;> rfl
  · dsimp only at h
    subst h
    cases lo <;> rfl

lemma compute_flag_unclassifiable (v r : String)
    (h : (parse_range r).low = none ∨ (parse_range r).high = none) :
    compute_flag v r = "" := by
  unfold compute_flag
  cases hv : pyFloat (stripList isPySpace v.data) with
  | none => rfl
  | some q =>
    dsimp only
    rcases h with h | h
    · rw [h]
    · rw [h]
      cases hl : (parse_range r).low <;> rfl

lemma classify_cases (r : ParsedRange) (v : ℚ) :
    r.classify v = "" ∨ r.classify v = "low" ∨ r.classify v = "normal" ∨
      r.classify v = "high" := by
  obtain ⟨lo, hi⟩ := r
  cases lo with
  | none => exact Or.inl (classify_unclassifiable _ v (Or.inl rfl))
  | some lo =>
    cases hi with
    | none => exact Or.inl (classify_unclassifiable _ v (Or.inr rfl))
    | some hi =>
      rw [classify_closed]
      split_ifs <;> tauto

/-! ### C4 -/

/-- C4: a comparison-symbol reference range produces a one-sided interval
(`>`/`>=` set only `low`, `<`/`<=` set only `high`; `"> 5"` gives
`{low := 5, high := none}`), and `classify` on any `ParsedRange` with a
missing bound — hence `compute_flag` over a one-sided range — returns the
empty string. -/
theorem c4_one_sided :
    parse_range "> 5" = ⟨some 5, none⟩ ∧
    parse_range ">= 5" = ⟨some 5, none⟩ ∧
    parse_range "< 5" = ⟨none, some 5⟩ ∧
    parse_range "<= 5" = ⟨none, some 5⟩ ∧
    (∀ (r : ParsedRange) (v : ℚ), r.low = none ∨ r.high = none →
      r.classify v = "") ∧
    (∀ (v rr : String),
      ((parse_range rr).low = none ∨ (parse_range rr).high = none) →
      compute_flag v rr = "") := by
  refine ⟨by decide, by decide, by decide, by decide, ?_, ?_⟩
  · exact fun r v h => classify_unclassifiable r v h
  · exact fun v rr h => compute_flag_unclassifiable v rr h

/-- Witness for C4: the one-sided range `"> 5"` (whose `high` is absent)
never yields a flag, here at the value `"4"`. -/
theorem c4_one_sided_witness : compute_flag "4" "> 5" = "" :=
  c4_one_sided.2.2.2.2.2 "4" "> 5" (Or.inr (by decide))

/-! ### C5 -/

/-- C5: `compute_flag` is a total function into
`{"", "low", "normal", "high"}` (the embedding of the Python function,
which catches every parse failure): an unparseable value string or an
unclassifiable range yields the empty string; in particular
`compute_flag "abc" "12-16" = ""` and `compute_flag "14" "" = ""`. -/
theorem c5_compute_flag_total :
    (∀ (v r : String), pyFloat (stripList isPySpace v.data) = none →
      compute_flag v r = "") ∧
    (∀ (v r : String),
      ((parse_range r).low = none ∨ (parse_range r).high = none) →
      compute_flag v r = "") ∧
    (∀ (v r : String), compute_flag v r = "" ∨ compute_flag v r = "low" ∨
      compute_flag v r = "normal" ∨ compute_flag v r = "high") ∧
    compute_flag "abc" "12-16" = "" ∧
    compute_flag "14" "" = "" := by
  refine ⟨?_, ?_, ?_, by decide, by decide⟩
  · intro v r h
    unfold compute_flag
    rw [h]
  · exact fun v r h => compute_flag_unclassifiable v r h
  · intro v r
    unfold compute_flag
    cases hv : pyFloat (stripList isPySpace v.data) with
    | none => exact Or.inl rfl
    | some q =>
      dsimp only
      cases hl : (parse_range r).low with
      | none =>
        cases hh : (parse_range r).high <;> exact Or.inl rfl
      | some lo =>
        cases hh : (parse_range r).high with
        | none => exact Or.inl rfl
        | some hi => exact classify_cases (parse_range r) q

/-- Witness for C5: the unparseable value `"abc"` yields the empty flag. -/
theorem c5_compute_flag_total_witness : compute_flag "abc" "12-16" = "" :=
  c5_compute_flag_total.1 "abc" "12-16" (by decide)

/-! ### C7 -/

lemma cleanText_head?_not (l : List Char) (c : Char)
    (h : (clean_text l).head? = some c) : isDashColon c = false :=
  stripList_head?_not isDashColon _ c h

lemma cleanText_getLast?_not (l : List Char) (c : Char)
    (h : (clean_text l).getLast? = some c) : isDashColon c = false :=
  stripList_getLast?_not isDashColon _ c h

lemma fieldValue_ends_clean (pats : List (List (List Char))) (text : List Char) :
    (fieldValue pats text).data.head? ≠ some '-' ∧
    (fieldValue pats text).data.head? ≠ some ':' ∧
    (fieldValue pats text).data.getLast? ≠ some '-' ∧
    (fieldValue pats text).data.getLast? ≠ some ':' := by
  unfold fieldValue
  cases hs : searchFieldPatterns pats text with
  | none => exact ⟨by decide, by decide, by decide, by decide⟩
  | some g =>
    refine ⟨fun h => ?_, fun h => ?_, fun h => ?_, fun h => ?_⟩
    · have hc := cleanText_head?_not g '-' h
      simp [isDashColon] at hc
    · have hc := cleanText_head?_not g ':' h
      simp [isDashColon] at hc
    · have hc := cleanText_getLast?_not g '-' h
      simp [isDashColon] at hc
    · have hc := cleanText_getLast?_not g ':' h
      simp [isDashColon] at hc

/-- C7 counterexample: the claim's trimming guarantee fails — stripping
`-`/`:` after stripping whitespace can re-expose inner whitespace, so for
the text `"Age: - 45 -"` the extracted age is `" 45 "`, which has leading
and trailing spaces. -/
theorem c7_counterexample :
    (extract_patient_details "Age: - 45 -").lookup "age" = some " 45 " ∧
    ¬ (∀ p ∈ extract_patient_details "Age: - 45 -",
        p.2.data.head?.all (fun c => !(isPySpace c)) = true) := by
  decide

/-- C7 amended: `extract_patient_details` always returns exactly the seven
fixed keys in order; a field whose patterns match nowhere is present with
the empty string; and every value has no leading or trailing `-` or `:`
characters (stripping those may, however, re-expose whitespace, so the
claim's "no leading or trailing whitespace" part does not hold). -/
theorem c7_patient_details_shape (text : String) (p : String × String)
    (hp : p ∈ extract_patient_details text) :
    ((extract_patient_details text).map Prod.fst =
      ["name", "age", "gender", "patient_id", "date_of_report",
       "referring_doctor", "laboratory_name"]) ∧
    (∀ kp ∈ PATIENT_FIELD_PATTERNS, searchFieldPatterns kp.2 text.data = none →
      (kp.1, "") ∈ extract_patient_details text) ∧
    p.2.data.head? ≠ some '-' ∧ p.2.data.head? ≠ some ':' ∧
    p.2.data.getLast? ≠ some '-' ∧ p.2.data.getLast? ≠ some ':' := by
  refine ⟨?_, ?_, ?_⟩
  · rfl
  · intro kp hkp hnone
    have hmem := List.mem_map_of_mem
      (fun kp => (kp.1, fieldValue kp.2 text.data)) hkp
    simpa [extract_patient_details, fieldValue, hnone] using hmem
  · obtain ⟨kp, hkp, hpe⟩ := List.mem_map.mp hp
    have hends := fieldValue_ends_clean kp.2 text.data
    rw [← hpe]
    exact hends

/-- Witness for C7 on the text `"Age: - 45 -"` and its age entry. -/
theorem c7_patient_details_shape_witness :
    ((extract_patient_details "Age: - 45 -").map Prod.fst =
      ["name", "age", "gender", "patient_id", "date_of_report",
       "referring_doctor", "laboratory_name"]) ∧
    (∀ kp ∈ PATIENT_FIELD_PATTERNS,
      searchFieldPatterns kp.2 ("Age: - 45 -" : String).data = none →
      (kp.1, "") ∈ extract_patient_details "Age: - 45 -") ∧
    (" 45 " : String).data.head? ≠ some '-' ∧
    (" 45 " : String).data.head? ≠ some ':' ∧
    (" 45 " : String).data.getLast? ≠ some '-' ∧
    (" 45 " : String).data.getLast? ≠ some ':' :=
  c7_patient_details_shape "Age: - 45 -" ("age", " 45 ") (by decide)

/-! ### C8 -/

/-- C8: any cleaned line of any input text that contains a metadata keyword
(`patient`, `referring`, `doctor`, `lab`, `report`, `age`, `gender`,
case-insensitively) is rejected by `parse_test_line`, so `parse_tests`
emits no record for it; in particular `"Patient Age: 45"` produces no test
row even though it contains digits. -/
theorem c8_metadata_keyword_reject (text line : String)
    (hl : line ∈ iter_clean_lines text)
    (hk : contains_metadata_keyword line.data = true) :
    parse_test_line line = none ∧ parse_tests "Patient Age: 45" = [] := by
  constructor
  · unfold parse_test_line
    simp [hk]
  · decide

/-- Witness for C8 on the single-line text `"Patient Age: 45"`. -/
theorem c8_metadata_keyword_reject_witness :
    parse_test_line "Patient Age: 45" = none ∧
    parse_tests "Patient Age: 45" = [] :=
  c8_metadata_keyword_reject "Patient Age: 45" "Patient Age: 45"
    (by decide) (by decide)

/-! ### C10 -/

/-- C10: keyword rejection is plain substring matching on the lowercased
line, so keywords embedded in unrelated words also reject the line:
`"Lymphocyte Percentage 25 20-40"` (contains `age`) and
`"Folate available 5 2-20"` (contains `lab`) contain metadata keywords and
produce no test record, although both look like legitimate test rows. -/
theorem c10_embedded_keyword_reject (line : String)
    (hk : contains_metadata_keyword line.data = true) :
    parse_test_line line = none ∧
    contains_metadata_keyword ("Lymphocyte Percentage 25 20-40" : String).data = true ∧
    parse_tests "Lymphocyte Percentage 25 20-40" = [] ∧
    contains_metadata_keyword ("Folate available 5 2-20" : String).data = true ∧
    parse_tests "Folate available 5 2-20" = [] := by
  refine ⟨?_, by decide, by decide, by decide, by decide⟩
  unfold parse_test_line
  simp [hk]

/-- Witness for C10 at the line `"Lymphocyte Percentage 25 20-40"`. -/
theorem c10_embedded_keyword_reject_witness :
    parse_test_line "Lymphocyte Percentage 25 20-40" = none ∧
    contains_metadata_keyword ("Lymphocyte Percentage 25 20-40" : String).data = true ∧
    parse_tests "Lymphocyte Percentage 25 20-40" = [] ∧
    contains_metadata_keyword ("Folate available 5 2-20" : String).data = true ∧
    parse_tests "Folate available 5 2-20" = [] :=
  c10_embedded_keyword_reject "Lymphocyte Percentage 25 20-40" (by decide)
